import Mathlib

/-!
# Verification of the KIO effect layer (kintone unit-of-work library)

Shallow embedding of the repository's core subsystem, translated from
`src/packages/core/src` (the final revision of the design, which the
specification's claims reference):

* `models.ts` / `data.ts` — record value types (`KNewRecord`, `KRecord`),
  identifiers (integers or digit-only strings), field maps, errors;
* `kio.ts`       — the effect-tree algebra `KIOA` and its combinators
  (`fold`, `catch`, `retryN`, smart constructors with validation);
* `runner/runner.ts` — the interpreter: a recursive evaluator threading a
  pending-write buffer (`BulkRequest` list) through the tree, instantiated
  at the `promiseEither` effect (`runner/promise/promiseEither.ts`), i.e.
  a promise of `Either` with a separate rejection channel for thrown
  values.

The embedding makes the interpreter's interactions with the client
collaborator observable: evaluation returns, besides the outcome, the
trace of async-thunk invocations and client calls, in order.
-/

/-- JS `number | string` identifier / revision values (`AppID`, `RecordID`,
`Revision` in `models.ts`: an integer or a digit-only string).  `nan` is the
JS `NaN` number, which the interpreter can produce when coercing a missing
revision with `Number(...)`. -/
inductive Ident where
  | num (n : Int)
  | str (s : String)
  | nan
deriving DecidableEq, Repr

/-- One field object `{ type?: string, value: ... }` of a record's field map
(`KAnyFields` in `models.ts`, `_KFields` in `data.ts`).  The interpreter
never inspects field values, so their carrier is fixed to `String`. -/
structure KField where
  type : Option String
  value : String
deriving DecidableEq, Repr

/-- A record's field map: the entries of the JS object, in key order. -/
abbrev FieldMap := List (String × KField)

/-- `KNewRecord` (`data.ts`): a record not yet persisted; app plus fields. -/
structure KNewRecord where
  app : Ident
  value : FieldMap
deriving DecidableEq, Repr

/-- `KRecord` (`data.ts`): a persisted record snapshot.  Field order follows
the TS constructor `new KRecord(value, app, id, revision)`. -/
structure KRecord where
  value : FieldMap
  app : Ident
  id : Ident
  revision : Option Ident
deriving DecidableEq, Repr

/-- `KRecord.update` (`data.ts` lines 54-56):
`update(f) = new KRecord(f(this.value), this.app, this.id, this.revision)`. -/
def KRecord.update (r : KRecord) (f : FieldMap → FieldMap) : KRecord :=
  KRecord.mk (f r.value) r.app r.id r.revision

/-- Normalized remote-API error `{id, code, message}` (`KError`). -/
structure KError where
  id : String
  code : String
  message : String
deriving DecidableEq, Repr

/-- One entry of an update-many payload (`UpdateRecordsRequest` rows in
`client.ts`): `{ id, record, revision }`. -/
structure UpdateEntry where
  id : Ident
  record : FieldMap
  revision : Option Ident
deriving DecidableEq, Repr

/-- One pending write (`BulkRequest` in `client.ts`).  The HTTP method and
api path are determined by the constructor:
`addRecord` = POST `/k/v1/record.json`, `addRecords` = POST
`/k/v1/records.json`, `updateRecord` = PUT `/k/v1/record.json`,
`updateRecords` = PUT `/k/v1/records.json`, `deleteRecords` = DELETE
`/k/v1/records.json`; the payload fields are the constructor arguments. -/
inductive BulkRequest where
  | addRecord (app : Ident) (record : FieldMap)
  | addRecords (app : Ident) (records : List FieldMap)
  | updateRecord (app : Ident) (id : Ident) (record : FieldMap)
      (revision : Option Ident)
  | updateRecords (app : Ident) (records : List UpdateEntry)
  | deleteRecords (app : Ident) (ids : List Ident) (revisions : List Ident)
deriving DecidableEq, Repr

/-- Dynamic values flowing through the effect tree (the TS `unknown`
channels).  `unit` is JS `undefined`; `jsError` is a thrown
`Error(message)` object; the other constructors cover the values the
interpreter itself produces plus enough user values for concrete tests. -/
inductive KVal where
  | unit
  | record (r : KRecord)
  | records (rs : List KRecord)
  | err (e : KError)
  | jsError (message : String)
  | num (n : Int)
  | str (s : String)
deriving DecidableEq, Repr

/-- The closed operation algebra `KIOA` (`kio.ts`).  An `Async` thunk is
modeled by a label (identifying the thunk, so invocations can be counted in
the trace) together with its outcome: `.ok` resolution or `.error`
rejection. -/
inductive KIOA where
  | succeed (value : KVal)
  | fail (error : KVal)
  | async (lbl : Nat) (outcome : Except KVal KVal)
  | andThen (self : KIOA) (f : KVal → KIOA)
  | fold (self : KIOA) (success : KVal → KIOA) (failure : KVal → KIOA)
  | getRecord (app : Ident) (id : Ident)
  | getRecords (app : Ident) (fields : Option (List String))
      (query : Option String)
  | addRecord (record : KNewRecord)
  | addRecords (records : List KNewRecord)
  | updateRecord (record : KRecord)
  | updateRecords (records : List KRecord)
  | deleteRecord (record : KRecord)
  | deleteRecords (records : List KRecord)
  | commit

/-- A row returned by the client for reads: the field map together with the
`$id.value` and `$revision.value` fields the client contract guarantees. -/
structure RespRow where
  fields : FieldMap
  idv : Ident
  revv : Ident

/-- The client collaborator (`KintoneClient` in `client.ts`): three
operations returning success-or-error. -/
structure Client where
  getRecord : Ident → Ident → Except KError RespRow
  getRecords : Ident → Option (List String) → Option String →
      Except KError (List RespRow)
  bulkRequest : List BulkRequest → Except KError Unit

/-- One observable step of an interpretation: an async thunk invocation or
one of the three client calls, with its arguments. -/
inductive Event where
  | asyncRun (lbl : Nat)
  | getRecordCall (app : Ident) (id : Ident)
  | getRecordsCall (app : Ident) (fields : Option (List String))
      (query : Option String)
  | bulkRequestCall (requests : List BulkRequest)
deriving DecidableEq, Repr

/-- Outcome of interpreting a tree, mirroring `Promise<Either<E, [buf, A]>>`
of the `promiseEither` effect: `ok` is `Right([buf, value])`, `failv` is
`Left(error)` (the typed failure channel, recoverable by `Fold`), `thrown`
is a promise rejection (an async thunk rejection or a thrown programming
error); a rejection bypasses `F.fold`, which dispatches only on fulfilled
`Either` values. -/
inductive RunOut where
  | ok (buf : List BulkRequest) (v : KVal)
  | failv (e : KVal)
  | thrown (e : KVal)
deriving DecidableEq, Repr

/-- The field types stripped before an update (`runner.ts`,
`removeProhibitedFieldsForUpdate`). -/
def prohibitedUpdateTypes : List String :=
  ["RECORD_NUMBER", "MODIFIER", "CREATOR", "UPDATED_TIME", "CREATED_TIME"]

/-- `Interpreter.removeProhibitedFieldsForUpdate` (`runner.ts` 285-300):
keep a field iff its `type` is absent (JS falsy; an empty-string type is
likewise kept, and is kept by the list test as well) or not one of the five
prohibited types. -/
def removeProhibitedFieldsForUpdate (record : FieldMap) : FieldMap :=
  record.filter (fun kv =>
    match kv.2.type with
    | none => true
    | some t => !(prohibitedUpdateTypes.contains t))

/-- JS digit-string to number (`Number("123") = 123`). -/
def digitsToNat (s : String) : Nat :=
  s.foldl (fun acc c => 10 * acc + (c.toNat - 48)) 0

/-- JS `Number(revision)` for a `Revision | undefined` value:
`Number(undefined)` is `NaN`, a digit-only string parses to its value, the
empty string coerces to `0`, any other string (never produced by the
validated constructors) is `NaN`. -/
def jsNumber : Option Ident → Ident
  | none => .nan
  | some (.num n) => .num n
  | some .nan => .nan
  | some (.str s) =>
      if s.isEmpty then .num 0
      else if s.all Char.isDigit then .num (digitsToNat s)
      else .nan

/-- `Number(record.revision) + 1`, the interpreter's optimistic new
revision (`runner.ts` line 181). -/
def incRevision (rev : Option Ident) : Ident :=
  match jsNumber rev with
  | .num n => .num (n + 1)
  | _ => .nan

/-- `record.revision ?? -1` (`runner.ts` delete cases). -/
def revisionOrNeg1 : Option Ident → Ident
  | some v => v
  | none => .num (-1)

/-- Thrown message of `AddRecords` on an empty list (`runner.ts` 143-145). -/
def addRecordsEmptyMsg : String :=
  "No records provided for the add records operation. Please specify at least one record."

/-- Thrown message of `UpdateRecords` on an empty list (`runner.ts` 189-191). -/
def updateRecordsEmptyMsg : String :=
  "No records provided for the update records operation. Please specify at least one record."

/-- Thrown message of `DeleteRecords` on an empty list (`runner.ts` 244-246). -/
def deleteRecordsEmptyMsg : String :=
  "No records provided for the delete records operation. Please specify at least one record."

/-- `Interpreter.run` (`runner.ts` 30-283) instantiated at the
`promiseEither` effect, with the trace of thunk invocations and client
calls made explicit.  Buffers thread exactly as in the source: `AndThen`
feeds the updated buffer of `self` to the continuation; `Fold` runs the
success continuation with the buffer produced by `self` but the failure
continuation with the buffer from before `self`; a `thrown` outcome
propagates past both `flatMap` and `fold` (a rejected promise skips their
fulfillment callbacks). -/
def runK (c : Client) : List BulkRequest → KIOA → List Event × RunOut
  | buf, .succeed v => ([], .ok buf v)
  | _, .fail e => ([], .failv e)
  | buf, .async lbl outcome =>
      ([.asyncRun lbl],
        match outcome with
        | .ok a => .ok buf a
        | .error e => .thrown e)
  | buf, .andThen self f =>
      match runK c buf self with
      | (tr, .ok buf1 a1) =>
          let r2 := runK c buf1 (f a1)
          (tr ++ r2.1, r2.2)
      | (tr, out) => (tr, out)
  | buf, .fold self success failure =>
      match runK c buf self with
      | (tr, .ok buf1 a1) =>
          let r2 := runK c buf1 (success a1)
          (tr ++ r2.1, r2.2)
      | (tr, .failv e) =>
          let r2 := runK c buf (failure e)
          (tr ++ r2.1, r2.2)
      | (tr, .thrown e) => (tr, .thrown e)
  | buf, .getRecord app id =>
      ([.getRecordCall app id],
        match c.getRecord app id with
        | .error e => .failv (.err e)
        | .ok row => .ok buf (.record (KRecord.mk row.fields app row.idv (some row.revv))))
  | buf, .getRecords app fields query =>
      let fields2 := fields.map (fun l => l ++ ["$id", "$revision"])
      ([.getRecordsCall app fields2 query],
        match c.getRecords app fields2 query with
        | .error e => .failv (.err e)
        | .ok rows =>
            .ok buf (.records (rows.map (fun row =>
              KRecord.mk row.fields app row.idv (some row.revv)))))
  | buf, .addRecord r =>
      ([], .ok (buf ++ [.addRecord r.app r.value]) .unit)
  | _, .addRecords [] => ([], .thrown (.jsError addRecordsEmptyMsg))
  | buf, .addRecords (r :: rs) =>
      ([], .ok (buf ++ [.addRecords r.app ((r :: rs).map (fun x => x.value))]) .unit)
  | buf, .updateRecord r =>
      ([], .ok
        (buf ++ [.updateRecord r.app r.id (removeProhibitedFieldsForUpdate r.value) r.revision])
        (.record (KRecord.mk r.value r.app r.id (some (incRevision r.revision)))))
  | _, .updateRecords [] => ([], .thrown (.jsError updateRecordsEmptyMsg))
  | buf, .updateRecords (r :: rs) =>
      ([], .ok
        (buf ++ [.updateRecords r.app ((r :: rs).map (fun x =>
          UpdateEntry.mk x.id (removeProhibitedFieldsForUpdate x.value) x.revision))])
        (.records ((r :: rs).map (fun x =>
          KRecord.mk x.value x.app x.id (some (incRevision x.revision))))))
  | buf, .deleteRecord r =>
      ([], .ok
        (buf ++ [.deleteRecords r.app [r.id] [revisionOrNeg1 r.revision]])
        .unit)
  | _, .deleteRecords [] => ([], .thrown (.jsError deleteRecordsEmptyMsg))
  | buf, .deleteRecords (r :: rs) =>
      ([], .ok
        (buf ++ [.deleteRecords r.app ((r :: rs).map (fun x => x.id))
          ((r :: rs).map (fun x => revisionOrNeg1 x.revision))])
        .unit)
  | buf, .commit =>
      if buf.isEmpty then ([], .ok [] .unit)
      else
        ([.bulkRequestCall buf],
          match c.bulkRequest buf with
          | .error e => .failv (.err e)
          | .ok _ => .ok [] .unit)

/-- `KIO.prototype.catch` (`kio.ts` 255-257):
`catch(f) = this.fold((a) => KIO.succeed(a), f)`. -/
def kioCatch (t : KIOA) (f : KVal → KIOA) : KIOA :=
  .fold t (fun a => .succeed a) f

/-- The inner `loop` of `KIO.prototype.retryN` (`kio.ts` 305-310):
`loop(n) = this.catch((e) => (n === 0 ? KIO.fail(e) : loop(n - 1)))`. -/
def retryNloop (t : KIOA) : Nat → KIOA
  | 0 => kioCatch t (fun e => .fail e)
  | n + 1 => kioCatch t (fun _ => retryNloop t n)

/-- `KIO.prototype.retryN` (`kio.ts` 305-310): `retryN(times) = loop(times)`. -/
def retryN (t : KIOA) (times : Nat) : KIOA :=
  retryNloop t times

/-- The `ValidationError` thrown synchronously by the smart constructors
when their arguments fail the schema checks (`models.ts` 243-265). -/
structure ValidationError where
  message : String
deriving DecidableEq, Repr

/-- `KIO.addRecords` (`kio.ts` 463-479): validates `_AddRecordsArgs`, whose
`records` schema is an array with the collaborator's `minLength(1)` check
(`models.ts` 186-189) — an empty array throws a `ValidationError` at
construction time — then wraps each field map into a `KNewRecord` with the
single `app` and builds the `AddRecords` node. -/
def kioAddRecords (app : Ident) (records : List FieldMap) :
    Except ValidationError KIOA :=
  if records.length < 1 then
    .error ⟨"Invalid length: Expected >=1 but received " ++ toString records.length⟩
  else
    .ok (.addRecords (records.map (fun r => KNewRecord.mk app r)))

/-- `KIO.updateRecords` (`kio.ts` 537-545): validates `_UpdateRecordsArgs`,
whose `records` schema carries the collaborator's `minLength(1)` check
(`models.ts` 213-215) — an empty array throws a `ValidationError` at
construction time — then builds the `UpdateRecords` node. -/
def kioUpdateRecords (records : List KRecord) :
    Except ValidationError KIOA :=
  if records.length < 1 then
    .error ⟨"Invalid length: Expected >=1 but received " ++ toString records.length⟩
  else
    .ok (.updateRecords records)

/-- `KIO.deleteRecords` (`kio.ts` 595-603): validates `_DeleteRecordsArgs`,
whose `records` schema carries the collaborator's `minLength(1)` check
(`models.ts` 239-241) — an empty array throws a `ValidationError` at
construction time — then builds the `DeleteRecords` node. -/
def kioDeleteRecords (records : List KRecord) :
    Except ValidationError KIOA :=
  if records.length < 1 then
    .error ⟨"Invalid length: Expected >=1 but received " ++ toString records.length⟩
  else
    .ok (.deleteRecords records)

/-- Trees containing no `Commit` node, under every continuation. -/
inductive CommitFree : KIOA → Prop where
  | succeed (v) : CommitFree (.succeed v)
  | fail (e) : CommitFree (.fail e)
  | async (lbl outcome) : CommitFree (.async lbl outcome)
  | andThen {self f} : CommitFree self → (∀ a, CommitFree (f a)) →
      CommitFree (.andThen self f)
  | fold {self s g} : CommitFree self → (∀ a, CommitFree (s a)) →
      (∀ e, CommitFree (g e)) → CommitFree (.fold self s g)
  | getRecord (app id) : CommitFree (.getRecord app id)
  | getRecords (app fields query) : CommitFree (.getRecords app fields query)
  | addRecord (r) : CommitFree (.addRecord r)
  | addRecords (rs) : CommitFree (.addRecords rs)
  | updateRecord (r) : CommitFree (.updateRecord r)
  | updateRecords (rs) : CommitFree (.updateRecords rs)
  | deleteRecord (r) : CommitFree (.deleteRecord r)
  | deleteRecords (rs) : CommitFree (.deleteRecords rs)

/-- Whether an event is a `bulkRequest` client call. -/
def isBulkCall : Event → Bool
  | .bulkRequestCall _ => true
  | _ => false

/-- Number of `bulkRequest` client calls in a trace. -/
def bulkCalls (tr : List Event) : Nat :=
  (tr.filter isBulkCall).length

/-- The buffer component of a successful outcome, if any. -/
def RunOut.okBuf : RunOut → Option (List BulkRequest)
  | .ok buf _ => some buf
  | _ => none

/-- One buffered write operation, as a caller would enqueue it: the six
Add/Update/Delete node shapes, with the plural ones carrying at least one
record (the validated smart constructors refuse empty arrays). -/
inductive WriteOp where
  | add (r : KNewRecord)
  | adds (r : KNewRecord) (rs : List KNewRecord)
  | upd (r : KRecord)
  | upds (r : KRecord) (rs : List KRecord)
  | del (r : KRecord)
  | dels (r : KRecord) (rs : List KRecord)

/-- The effect-tree node of a write operation. -/
def opNode : WriteOp → KIOA
  | .add r => .addRecord r
  | .adds r rs => .addRecords (r :: rs)
  | .upd r => .updateRecord r
  | .upds r rs => .updateRecords (r :: rs)
  | .del r => .deleteRecord r
  | .dels r rs => .deleteRecords (r :: rs)

/-- The buffer entry the interpreter enqueues for a write operation. -/
def entryOf : WriteOp → BulkRequest
  | .add r => .addRecord r.app r.value
  | .adds r rs => .addRecords r.app ((r :: rs).map (fun x => x.value))
  | .upd r =>
      .updateRecord r.app r.id (removeProhibitedFieldsForUpdate r.value) r.revision
  | .upds r rs =>
      .updateRecords r.app ((r :: rs).map (fun x =>
        UpdateEntry.mk x.id (removeProhibitedFieldsForUpdate x.value) x.revision))
  | .del r => .deleteRecords r.app [r.id] [revisionOrNeg1 r.revision]
  | .dels r rs =>
      .deleteRecords r.app ((r :: rs).map (fun x => x.id))
        ((r :: rs).map (fun x => revisionOrNeg1 x.revision))

/-- The success value the interpreter returns for a write operation. -/
def opValue : WriteOp → KVal
  | .add _ => .unit
  | .adds _ _ => .unit
  | .upd r => .record (KRecord.mk r.value r.app r.id (some (incRevision r.revision)))
  | .upds r rs =>
      .records ((r :: rs).map (fun x =>
        KRecord.mk x.value x.app x.id (some (incRevision x.revision))))
  | .del _ => .unit
  | .dels _ _ => .unit

/-- A chain of write operations composed left-to-right with `AndThen`
(ending in a trivial `Succeed`), as callers build it via `andThen`. -/
def seqWrites : List WriteOp → KIOA
  | [] => .succeed .unit
  | w :: ws => .andThen (opNode w) (fun _ => seqWrites ws)

/-- A concrete client for evaluating closed instances: reads fail with a
fixed remote error and `bulkRequest` succeeds. -/
def trivClient : Client where
  getRecord := fun _ _ => .error (KError.mk "e1" "GAIA_RE01" "record not found")
  getRecords := fun _ _ _ => .error (KError.mk "e1" "GAIA_RE01" "record not found")
  bulkRequest := fun _ => .ok ()

/-- A concrete unsaved record for closed instances. -/
def nr0 : KNewRecord :=
  KNewRecord.mk (.num 1) [("text", KField.mk none "a")]

/-- A concrete saved record (app 1, id 5, revision 1) for closed instances. -/
def r0 : KRecord :=
  KRecord.mk [("text", KField.mk none "a")] (.num 1) (.num 5) (some (.num 1))

theorem bulkCalls_append (t1 t2 : List Event) :
    bulkCalls (t1 ++ t2) = bulkCalls t1 + bulkCalls t2 := by
  simp [bulkCalls, List.filter_append]

/-- Unfolding equation of `runK` at an `AndThen` node. -/
theorem runK_andThen (c : Client) (buf : List BulkRequest) (self : KIOA)
    (f : KVal → KIOA) :
    runK c buf (.andThen self f) =
      (match runK c buf self with
        | (tr, .ok buf1 a1) =>
            let r2 := runK c buf1 (f a1)
            (tr ++ r2.1, r2.2)
        | (tr, out) => (tr, out)) := by
  rw [runK.eq_def]

/-- Unfolding equation of `runK` at a `Fold` node. -/
theorem runK_fold (c : Client) (buf : List BulkRequest) (self : KIOA)
    (s g : KVal → KIOA) :
    runK c buf (.fold self s g) =
      (match runK c buf self with
        | (tr, .ok buf1 a1) =>
            let r2 := runK c buf1 (s a1)
            (tr ++ r2.1, r2.2)
        | (tr, .failv e) =>
            let r2 := runK c buf (g e)
            (tr ++ r2.1, r2.2)
        | (tr, .thrown e) => (tr, .thrown e)) := by
  rw [runK.eq_def]

/-- A tree without `Commit` nodes never triggers a `bulkRequest` call. -/
theorem commitFree_no_bulk (c : Client) {t : KIOA} (h : CommitFree t) :
    ∀ buf, bulkCalls (runK c buf t).1 = 0 := by
  induction h with
  | succeed v => intro buf; simp [runK, bulkCalls]
  | fail e => intro buf; simp [runK, bulkCalls]
  | async lbl outcome =>
      intro buf
      simp [runK, bulkCalls, isBulkCall]
  | @andThen self f hself hf ihself ihf =>
      intro buf
      rw [runK_andThen]
      rcases hre : runK c buf self with ⟨tr, out⟩
      cases out with
      | ok b a =>
          have h1 : bulkCalls tr = 0 := by
            have := ihself buf; rw [hre] at this; exact this
          simp only [bulkCalls_append, h1]
          simpa using ihf a b
      | failv e =>
          have := ihself buf; rw [hre] at this; simpa using this
      | thrown e =>
          have := ihself buf; rw [hre] at this; simpa using this
  | @fold self s g hself hs hg ihself ihs ihg =>
      intro buf
      rw [runK_fold]
      rcases hre : runK c buf self with ⟨tr, out⟩
      have h1 : bulkCalls tr = 0 := by
        have := ihself buf; rw [hre] at this; exact this
      cases out with
      | ok b a => simp only [bulkCalls_append, h1]; simpa using ihs a b
      | failv e => simp only [bulkCalls_append, h1]; simpa using ihg e buf
      | thrown e => simpa using h1
  | getRecord app id =>
      intro buf
      simp only [runK]
      cases c.getRecord app id <;> simp [bulkCalls, isBulkCall]
  | getRecords app fields query =>
      intro buf
      simp only [runK]
      cases c.getRecords app (fields.map (fun l => l ++ ["$id", "$revision"])) query <;>
        simp [bulkCalls, isBulkCall]
  | addRecord r => intro buf; simp [runK, bulkCalls]
  | addRecords rs =>
      intro buf; cases rs <;> simp [runK, bulkCalls]
  | updateRecord r => intro buf; simp [runK, bulkCalls]
  | updateRecords rs =>
      intro buf; cases rs <;> simp [runK, bulkCalls]
  | deleteRecord r => intro buf; simp [runK, bulkCalls]
  | deleteRecords rs =>
      intro buf; cases rs <;> simp [runK, bulkCalls]

/-- Interpreting one write operation: no client call, one entry appended. -/
theorem runK_opNode (c : Client) (buf : List BulkRequest) (w : WriteOp) :
    runK c buf (opNode w) = ([], .ok (buf ++ [entryOf w]) (opValue w)) := by
  cases w <;> rfl

/-- Interpreting a chain of write operations makes no client call and
appends the corresponding entries to the buffer, in chain order. -/
theorem runK_seqWrites (c : Client) (ws : List WriteOp) :
    ∀ buf, runK c buf (seqWrites ws) =
      ([], .ok (buf ++ ws.map entryOf) .unit) := by
  induction ws with
  | nil => intro buf; simp [seqWrites, runK]
  | cons w ws ih =>
      intro buf
      rw [seqWrites, runK_andThen, runK_opNode]
      simp [ih (buf ++ [entryOf w])]

/-- C9: for every Record `r` and transforms `f`, `g`, `r.update(f).update(g)`
equals `r.update(a => g(f(a)))` (in particular the field values agree), and
`update` leaves `app`, `id` and `revision` unchanged; `update` builds a new
record value, never mutating the original (in this embedding `KRecord` is an
immutable value, as in the source where every field is `readonly`). -/
theorem krecord_update_composes (r : KRecord) (f g : FieldMap → FieldMap) :
    (r.update f).update g = r.update (fun a => g (f a)) ∧
    ((r.update f).update g).value = g (f r.value) ∧
    (r.update f).app = r.app ∧
    (r.update f).id = r.id ∧
    (r.update f).revision = r.revision :=
  ⟨rfl, rfl, rfl, rfl, rfl⟩

/-- C6: `GetRecords` passes the caller's field list augmented with `$id` and
`$revision` to the client's list-read call; an absent field list is passed
through as absent. -/
theorem getRecords_augments_fields (c : Client) (buf : List BulkRequest)
    (app : Ident) (l : List String) (q : Option String) :
    (runK c buf (.getRecords app (some l) q)).1 =
      [.getRecordsCall app (some (l ++ ["$id", "$revision"])) q] ∧
    (runK c buf (.getRecords app none q)).1 =
      [.getRecordsCall app none q] :=
  ⟨rfl, rfl⟩

/-- C8: an empty records array given to the plural write operations is a
thrown fatal error, never a value on the typed failure channel: the
interpreter throws a programming `Error` (bypassing the `Either` channel)
for an empty `AddRecords`/`UpdateRecords`/`DeleteRecords` node, whatever
the client and buffer, and the smart constructors already throw a
`ValidationError` at construction time for an empty array, whatever the
other arguments. -/
theorem plural_empty_list_fatal (c : Client) (buf : List BulkRequest) :
    runK c buf (.addRecords []) = ([], .thrown (.jsError addRecordsEmptyMsg)) ∧
    runK c buf (.updateRecords []) = ([], .thrown (.jsError updateRecordsEmptyMsg)) ∧
    runK c buf (.deleteRecords []) = ([], .thrown (.jsError deleteRecordsEmptyMsg)) ∧
    (∀ e, (runK c buf (.addRecords [])).2 ≠ .failv e) ∧
    (∀ e, (runK c buf (.updateRecords [])).2 ≠ .failv e) ∧
    (∀ e, (runK c buf (.deleteRecords [])).2 ≠ .failv e) ∧
    (∀ app records, records = ([] : List FieldMap) →
      kioAddRecords app records =
        .error (ValidationError.mk "Invalid length: Expected >=1 but received 0")) ∧
    kioUpdateRecords [] =
      .error (ValidationError.mk "Invalid length: Expected >=1 but received 0") ∧
    kioDeleteRecords [] =
      .error (ValidationError.mk "Invalid length: Expected >=1 but received 0") := by
  refine ⟨rfl, rfl, rfl, ?_, ?_, ?_, ?_, rfl, rfl⟩
  · intro e h; exact RunOut.noConfusion h
  · intro e h; exact RunOut.noConfusion h
  · intro e h; exact RunOut.noConfusion h
  · intro app records h; subst h; rfl

/-- C4: for a record `r` whose revision is a defined integer or digit-string
of numeric value `n` and any field transform `f`, evaluating
`UpdateRecord` on `r.update f` makes no client call, succeeds with a new
record of the same app and id, field values `f(r.value)` and revision
`n + 1`, and enqueues one update entry carrying `r`'s id, the stripped
field map and the original revision value. -/
theorem updateRecord_increments_revision (c : Client) (buf : List BulkRequest)
    (r : KRecord) (f : FieldMap → FieldMap) (n : Int)
    (h : jsNumber r.revision = .num n) :
    runK c buf (.updateRecord (r.update f)) =
      ([], .ok
        (buf ++ [.updateRecord r.app r.id
          (removeProhibitedFieldsForUpdate (f r.value)) r.revision])
        (.record (KRecord.mk (f r.value) r.app r.id (some (.num (n + 1)))))) := by
  have hinc : incRevision r.revision = .num (n + 1) := by
    rw [incRevision, h]
  simp only [runK, KRecord.update, hinc]

/-- Witness for C4 at a concrete record with integer revision 1 and a
transform rewriting the `text` field. -/
theorem updateRecord_increments_revision_witness :
    jsNumber r0.revision = .num 1 ∧
    runK trivClient [] (.updateRecord (r0.update
        (fun _ => [("text", KField.mk none "b")]))) =
      ([], .ok
        [.updateRecord r0.app r0.id
          (removeProhibitedFieldsForUpdate [("text", KField.mk none "b")]) r0.revision]
        (.record (KRecord.mk [("text", KField.mk none "b")] r0.app r0.id
          (some (.num 2))))) :=
  ⟨by decide, by
    have h := updateRecord_increments_revision trivClient [] r0
      (fun _ => [("text", KField.mk none "b")]) 1 (by decide)
    simpa using h⟩

/-- C7: the field map placed in an update buffer entry (both the single and
the plural operation) is the record's field map stripped of exactly the
fields declared with one of the five read-only types; a field is kept iff
it was in the original map and its type, when declared, is none of
RECORD_NUMBER, MODIFIER, CREATOR, UPDATED_TIME, CREATED_TIME, and the kept
fields appear unchanged, in their original order (a sublist). -/
theorem update_entries_strip_prohibited (fm : FieldMap) (kv : String × KField)
    (c : Client) (buf : List BulkRequest) (r x : KRecord) (xs : List KRecord) :
    (kv ∈ removeProhibitedFieldsForUpdate fm ↔
      kv ∈ fm ∧ ∀ t, kv.2.type = some t →
        t ∉ ["RECORD_NUMBER", "MODIFIER", "CREATOR", "UPDATED_TIME", "CREATED_TIME"]) ∧
    List.Sublist (removeProhibitedFieldsForUpdate fm) fm ∧
    runK c buf (.updateRecord r) =
      ([], .ok
        (buf ++ [.updateRecord r.app r.id
          (removeProhibitedFieldsForUpdate r.value) r.revision])
        (.record (KRecord.mk r.value r.app r.id (some (incRevision r.revision))))) ∧
    runK c buf (.updateRecords (x :: xs)) =
      ([], .ok
        (buf ++ [.updateRecords x.app ((x :: xs).map (fun y =>
          UpdateEntry.mk y.id (removeProhibitedFieldsForUpdate y.value) y.revision))])
        (.records ((x :: xs).map (fun y =>
          KRecord.mk y.value y.app y.id (some (incRevision y.revision)))))) := by
  refine ⟨?_, List.filter_sublist _, rfl, rfl⟩
  rcases kv with ⟨k, ⟨ty, v⟩⟩
  cases ty with
  | none =>
      simp [removeProhibitedFieldsForUpdate, List.mem_filter]
  | some t =>
      simp only [removeProhibitedFieldsForUpdate, List.mem_filter]
      constructor
      · rintro ⟨hm, hp⟩
        refine ⟨hm, ?_⟩
        intro t2 ht2
        injection ht2 with h2
        subst h2
        simpa [prohibitedUpdateTypes] using hp
      · rintro ⟨hm, hp⟩
        refine ⟨hm, ?_⟩
        simpa [prohibitedUpdateTypes] using hp t rfl

/-- C10: for a non-empty list, each plural write operation builds its single
buffer entry with the app of the FIRST record; the apps of the remaining
records do not influence the entry (rewriting every tail app to an
arbitrary `a2` leaves the enqueued entry — and for add/delete the whole
result — unchanged). -/
theorem plural_ops_use_head_app (c : Client) (buf : List BulkRequest)
    (nr : KNewRecord) (nrs : List KNewRecord)
    (r : KRecord) (rs : List KRecord) (a2 : Ident) :
    runK c buf (.addRecords (nr :: nrs)) =
      ([], .ok (buf ++ [.addRecords nr.app ((nr :: nrs).map (fun x => x.value))]) .unit) ∧
    runK c buf (.updateRecords (r :: rs)) =
      ([], .ok
        (buf ++ [.updateRecords r.app ((r :: rs).map (fun y =>
          UpdateEntry.mk y.id (removeProhibitedFieldsForUpdate y.value) y.revision))])
        (.records ((r :: rs).map (fun y =>
          KRecord.mk y.value y.app y.id (some (incRevision y.revision)))))) ∧
    runK c buf (.deleteRecords (r :: rs)) =
      ([], .ok
        (buf ++ [.deleteRecords r.app ((r :: rs).map (fun x => x.id))
          ((r :: rs).map (fun x => revisionOrNeg1 x.revision))]) .unit) ∧
    runK c buf (.addRecords (nr :: nrs.map (fun x => KNewRecord.mk a2 x.value))) =
      runK c buf (.addRecords (nr :: nrs)) ∧
    (runK c buf (.updateRecords (r :: rs.map (fun x =>
        KRecord.mk x.value a2 x.id x.revision)))).2.okBuf =
      (runK c buf (.updateRecords (r :: rs))).2.okBuf ∧
    runK c buf (.deleteRecords (r :: rs.map (fun x =>
        KRecord.mk x.value a2 x.id x.revision))) =
      runK c buf (.deleteRecords (r :: rs)) := by
  refine ⟨rfl, rfl, rfl, ?_, ?_, ?_⟩
  · simp [runK, List.map_map, Function.comp]
  · simp [runK, RunOut.okBuf, List.map_map, Function.comp]
  · simp [runK, List.map_map, Function.comp]

/-- C1: the six write operations only append one entry to the pending-write
buffer and make no client call (their trace is empty); a tree without a
`Commit` node triggers zero `bulkRequest` calls; and if such a tree fails —
with a `Fail` value or an async rejection — any continuation (for instance
one that would reach a `Commit`) is skipped: the composed tree still makes
zero `bulkRequest` calls and its result is the propagated failure. -/
theorem writes_buffered_rollback_on_failure
    (c : Client) (buf : List BulkRequest) (t : KIOA) (k : KVal → KIOA)
    (e : KVal) (hcf : CommitFree t)
    (hout : (runK c buf t).2 = .failv e ∨ (runK c buf t).2 = .thrown e) :
    (∀ nr, runK c buf (.addRecord nr) =
      ([], .ok (buf ++ [.addRecord nr.app nr.value]) .unit)) ∧
    (∀ nr nrs, runK c buf (.addRecords (nr :: nrs)) =
      ([], .ok (buf ++ [.addRecords nr.app ((nr :: nrs).map (fun x => x.value))]) .unit)) ∧
    (∀ r, runK c buf (.updateRecord r) =
      ([], .ok
        (buf ++ [.updateRecord r.app r.id
          (removeProhibitedFieldsForUpdate r.value) r.revision])
        (.record (KRecord.mk r.value r.app r.id (some (incRevision r.revision)))))) ∧
    (∀ r rs, runK c buf (.updateRecords (r :: rs)) =
      ([], .ok
        (buf ++ [.updateRecords r.app ((r :: rs).map (fun y =>
          UpdateEntry.mk y.id (removeProhibitedFieldsForUpdate y.value) y.revision))])
        (.records ((r :: rs).map (fun y =>
          KRecord.mk y.value y.app y.id (some (incRevision y.revision))))))) ∧
    (∀ r, runK c buf (.deleteRecord r) =
      ([], .ok (buf ++ [.deleteRecords r.app [r.id] [revisionOrNeg1 r.revision]]) .unit)) ∧
    (∀ r rs, runK c buf (.deleteRecords (r :: rs)) =
      ([], .ok
        (buf ++ [.deleteRecords r.app ((r :: rs).map (fun x => x.id))
          ((r :: rs).map (fun x => revisionOrNeg1 x.revision))]) .unit)) ∧
    bulkCalls (runK c buf t).1 = 0 ∧
    runK c buf (.andThen t k) = runK c buf t ∧
    bulkCalls (runK c buf (.andThen t k)).1 = 0 := by
  have hb : bulkCalls (runK c buf t).1 = 0 := commitFree_no_bulk c hcf buf
  have hand : runK c buf (.andThen t k) = runK c buf t := by
    rw [runK_andThen]
    rcases hre : runK c buf t with ⟨tr, out⟩
    rw [hre] at hout
    cases out with
    | ok b a =>
        rcases hout with h | h <;> exact absurd h (by simp)
    | failv e2 => rfl
    | thrown e2 => rfl
  refine ⟨fun nr => rfl, fun nr nrs => rfl, fun r => rfl, fun r rs => rfl,
    fun r => rfl, fun r rs => rfl, hb, hand, ?_⟩
  rw [hand]; exact hb

/-- Witness for C1: an enqueued add followed by an explicit failure, with a
continuation that would commit; zero `bulkRequest` calls happen and the
failure propagates. -/
theorem writes_buffered_rollback_on_failure_witness :
    (runK trivClient [] (.andThen (.addRecord nr0) (fun _ => .fail (.str "boom")))).2 =
        .failv (.str "boom") ∧
    runK trivClient []
        (.andThen (.andThen (.addRecord nr0) (fun _ => .fail (.str "boom")))
          (fun _ => .commit)) =
      runK trivClient [] (.andThen (.addRecord nr0) (fun _ => .fail (.str "boom"))) ∧
    bulkCalls (runK trivClient []
        (.andThen (.andThen (.addRecord nr0) (fun _ => .fail (.str "boom")))
          (fun _ => .commit))).1 = 0 := by
  have h := writes_buffered_rollback_on_failure trivClient []
    (.andThen (.addRecord nr0) (fun _ => .fail (.str "boom")))
    (fun _ => .commit) (.str "boom")
    (CommitFree.andThen (CommitFree.addRecord nr0)
      (fun _ => CommitFree.fail (.str "boom")))
    (Or.inl (by decide))
  exact ⟨by decide, h.2.2.2.2.2.2.2.1, h.2.2.2.2.2.2.2.2⟩

/-- C2: a chain of N ≥ 1 write operations followed by one `Commit` produces
exactly one `bulkRequest` client call whose requests are exactly the N
entries in evaluation order; if the client accepts, the buffer is reset to
empty and `Commit` succeeds with void; and a `Commit` on an empty buffer
succeeds immediately with void, making no network call. -/
theorem commit_flushes_buffer_atomically (c : Client) (ws : List WriteOp)
    (h : ws ≠ []) :
    runK c [] (.andThen (seqWrites ws) (fun _ => .commit)) =
      ([.bulkRequestCall (ws.map entryOf)],
        match c.bulkRequest (ws.map entryOf) with
        | .error e => .failv (.err e)
        | .ok _ => .ok [] .unit) ∧
    (ws.map entryOf).length = ws.length ∧
    runK c [] .commit = ([], .ok [] .unit) := by
  refine ⟨?_, ws.length_map entryOf, rfl⟩
  rw [runK_andThen, runK_seqWrites]
  have hne : (ws.map entryOf).isEmpty = false := by
    cases ws with
    | nil => exact absurd rfl h
    | cons w ws => rfl
  simp only [runK, List.nil_append, hne]
  simp

/-- Witness for C2 with a single enqueued add against a client that accepts
the bulk request. -/
theorem commit_flushes_buffer_atomically_witness :
    runK trivClient [] (.andThen (seqWrites [.add nr0]) (fun _ => .commit)) =
      ([.bulkRequestCall [.addRecord nr0.app nr0.value]], .ok [] .unit) ∧
    runK trivClient [] .commit = ([], .ok [] .unit) := by
  have h := commit_flushes_buffer_atomically trivClient [.add nr0]
    (List.cons_ne_nil _ _)
  refine ⟨?_, h.2.2⟩
  have h1 := h.1
  simpa [entryOf, trivClient] using h1

/-- Counterexample for C3 as stated: `self` enqueues one add and then fails;
the claim says the failure continuation carries the buffer including the
enqueued write, but the interpreter hands it the buffer from before `self`
started.  Here the identity-like failure continuation finishes with the
empty buffer, not with the enqueued add entry. -/
theorem fold_failure_keeps_prefold_buffer_counterexample :
    runK trivClient []
        (.fold (.andThen (.addRecord nr0) (fun _ => .fail (.str "e")))
          (fun a => .succeed a) (fun e => .succeed e)) =
      ([], .ok [] (.str "e")) ∧
    (runK trivClient []
        (.fold (.andThen (.addRecord nr0) (fun _ => .fail (.str "e")))
          (fun a => .succeed a) (fun e => .succeed e))).2 ≠
      .ok [.addRecord nr0.app nr0.value] (.str "e") := by
  exact ⟨by decide, by decide⟩

/-- C3 (amended): after evaluating `self`, a `Fold` node dispatches on the
typed outcome: on success exactly the success continuation runs, against
the buffer produced by `self`; on a `Fail`-channel failure exactly the
failure continuation runs, against the buffer from before `self`'s
evaluation began — any writes `self` enqueued before failing are discarded,
as the last conjunct shows for a chain of enqueued writes followed by a
failure; a thrown outcome (rejected async thunk or fatal error) bypasses
both continuations. -/
theorem fold_dispatches_on_typed_outcome (c : Client) (buf : List BulkRequest)
    (self : KIOA) (succ failc : KVal → KIOA) (ws : List WriteOp) (e : KVal) :
    (∀ tr b a, runK c buf self = (tr, .ok b a) →
      runK c buf (.fold self succ failc) =
        (tr ++ (runK c b (succ a)).1, (runK c b (succ a)).2)) ∧
    (∀ tr e2, runK c buf self = (tr, .failv e2) →
      runK c buf (.fold self succ failc) =
        (tr ++ (runK c buf (failc e2)).1, (runK c buf (failc e2)).2)) ∧
    (∀ tr e2, runK c buf self = (tr, .thrown e2) →
      runK c buf (.fold self succ failc) = (tr, .thrown e2)) ∧
    runK c buf (.fold (.andThen (seqWrites ws) (fun _ => .fail e)) succ failc) =
      ((runK c buf (failc e)).1, (runK c buf (failc e)).2) := by
  refine ⟨?_, ?_, ?_, ?_⟩
  · intro tr b a h
    rw [runK_fold, h]
  · intro tr e2 h
    rw [runK_fold, h]
  · intro tr e2 h
    rw [runK_fold, h]
  · have hself : runK c buf (.andThen (seqWrites ws) (fun _ => .fail e)) =
        ([], .failv e) := by
      rw [runK_andThen, runK_seqWrites]
      simp [runK]
    rw [runK_fold, hself]
    rfl

/-- Witness for C3 (amended), exercising the failure branch at a concrete
input: the failure continuation receives the error and runs against the
pre-fold buffer. -/
theorem fold_dispatches_on_typed_outcome_witness :
    runK trivClient []
        (.fold (.fail (.str "x")) (fun a => .succeed a) (fun e => .succeed e)) =
      ([], .ok [] (.str "x")) := by
  have h := (fold_dispatches_on_typed_outcome trivClient [] (.fail (.str "x"))
    (fun a => .succeed a) (fun e => .succeed e) [] (.str "x")).2.1
    [] (.str "x") (by decide)
  simpa using h

/-- Counterexample for C5 as stated: for `async(failingThunk).retryN(1)` the
claim requires 2 invocations of the thunk; the interpreter invokes it
exactly once, because the thunk's rejection bypasses the `Fold` that
`retryN` builds (the `promiseEither` fold dispatches only on fulfilled
`Either` values) and propagates as a rejection. -/
theorem retryN_async_rejection_counterexample :
    (runK trivClient [] (retryN (.async 0 (.error (.str "boom"))) 1)).1.count
        (.asyncRun 0) = 1 ∧
    (runK trivClient [] (retryN (.async 0 (.error (.str "boom"))) 1)).1.count
        (.asyncRun 0) ≠ 1 + 1 ∧
    (runK trivClient [] (retryN (.async 0 (.error (.str "boom"))) 1)).2 =
      .thrown (.str "boom") := by
  exact ⟨by decide, by decide, by decide⟩

/-- C5 (amended): for every k ≥ 0, an effect failing on the typed error
channel (an async step, counted through its trace label, followed by
`Fail e`) composed with `retryN k` evaluates the underlying effect exactly
k + 1 times and the final result is the original failure `e` unchanged;
whereas an `Async` whose thunk rejects is not retried: the thunk is
invoked exactly once and the rejection propagates unchanged. -/
theorem retryN_exhaustion_on_typed_failure (c : Client) (buf : List BulkRequest)
    (k : Nat) (lbl : Nat) (v e : KVal) :
    runK c buf (retryN (.andThen (.async lbl (.ok v)) (fun _ => .fail e)) k) =
      (List.replicate (k + 1) (.asyncRun lbl), .failv e) ∧
    runK c buf (retryN (.async lbl (.error e)) k) =
      ([.asyncRun lbl], .thrown e) := by
  have ht : ∀ buf2, runK c buf2 (.andThen (.async lbl (.ok v)) (fun _ => .fail e)) =
      ([.asyncRun lbl], .failv e) := by
    intro buf2
    rw [runK_andThen]
    simp [runK]
  have hta : ∀ buf2, runK c buf2 (.async lbl (.error e)) =
      ([.asyncRun lbl], .thrown e) := by
    intro buf2
    simp [runK]
  constructor
  · show runK c buf (retryNloop _ k) = _
    induction k generalizing buf with
    | zero =>
        rw [retryNloop, kioCatch, runK_fold, ht buf]
        simp [runK]
    | succ k ih =>
        rw [retryNloop, kioCatch, runK_fold, ht buf]
        rw [ih buf]
        simp [List.replicate_succ]
  · show runK c buf (retryNloop _ k) = _
    induction k generalizing buf with
    | zero =>
        rw [retryNloop, kioCatch, runK_fold, hta buf]
    | succ k ih =>
        rw [retryNloop, kioCatch, runK_fold, hta buf]
